import Mathlib

/-!
Shallow embedding of the control core of the `product_dev_course` RC-vehicle
firmware (projects/rc_vehicle/firmware), together with theorems checking the
natural-language specification against it.

Conventions of the embedding:
* C `uint32_t` timestamps and pulse widths are modelled as `Nat`; wherever the
  C code subtracts two `uint32_t` values (which wraps modulo `2^32`) we use
  `u32sub`, the exact wrap-around subtraction.
* C `float` command values (throttle/steering, normalised to `[-1, 1]`) are
  modelled as `ℚ` (exact arithmetic standing in for `f32`); the properties at
  stake are piecewise-linear order facts, not rounding behaviour.
* Static mutable module state becomes explicit state records threaded through
  the step functions; hardware side effects (PWM writes) become explicit
  output values.
-/

/-- `2^32`, the modulus of C `uint32_t` arithmetic. -/
def u32Mod : ℕ := 4294967296

/-- Exact model of C `uint32_t` subtraction `a - b` (wraps modulo `2^32`). -/
def u32sub (a b : ℕ) : ℕ := (a + u32Mod - b % u32Mod) % u32Mod

/-! Section: Configuration constants (from `config.hpp` of the stm32 / esp32_s3
targets; values shared between the two). -/

/-- `FAILSAFE_TIMEOUT_MS` from `config.hpp` (250 ms on both targets). -/
def FAILSAFE_TIMEOUT_MS : ℕ := 250

/-- `RC_IN_POLL_INTERVAL_MS` from `esp32_s3/main/config.hpp` (20 ms). -/
def RC_IN_POLL_INTERVAL_MS : ℕ := 20

/-- `PWM_UPDATE_INTERVAL_MS` from `esp32_s3/main/config.hpp` (20 ms). -/
def PWM_UPDATE_INTERVAL_MS : ℕ := 20

/-- `IMU_READ_INTERVAL_MS` from `esp32_s3/main/config.hpp` (20 ms). -/
def IMU_READ_INTERVAL_MS : ℕ := 20

/-- `TELEM_SEND_INTERVAL_MS` from `esp32_s3/main/config.hpp` (50 ms). -/
def TELEM_SEND_INTERVAL_MS : ℕ := 50

/-- `RC_IN_PULSE_MIN_US` from `esp32_s3/main/config.hpp` (1000 µs). -/
def RC_IN_PULSE_MIN_US : ℕ := 1000

/-- `RC_IN_PULSE_MAX_US` from `esp32_s3/main/config.hpp` (2000 µs). -/
def RC_IN_PULSE_MAX_US : ℕ := 2000

/-- `RC_IN_THROTTLE_PIN` from `esp32_s3/main/config.hpp` (GPIO 4). -/
def RC_IN_THROTTLE_PIN : ℕ := 4

/-- `RC_IN_STEERING_PIN` from `esp32_s3/main/config.hpp` (GPIO 5). -/
def RC_IN_STEERING_PIN : ℕ := 5

/-- `SLEW_RATE_THROTTLE_MAX_PER_SEC` from `config.hpp` (`0.5f`). -/
def SLEW_RATE_THROTTLE_MAX_PER_SEC : ℚ := 1 / 2

/-- `SLEW_RATE_STEERING_MAX_PER_SEC` from `config.hpp` (`1.0f`). -/
def SLEW_RATE_STEERING_MAX_PER_SEC : ℚ := 1

/-- `PONG_TIMEOUT_MS` from `esp32/main/config.hpp` (6000 ms). -/
def PONG_TIMEOUT_MS : ℕ := 6000

/-! Section: Failsafe supervisor

Embeds `stm32/main/failsafe.cpp` (`FailsafeInit` / `FailsafeUpdate` /
`FailsafeIsActive`; the esp32_s3 target delegates to an identical
`rc_vehicle::FailsafeUpdate` core).  The static module state
`failsafe_active` / `last_active_source_time` becomes `FailsafeState`; the
`platform_get_time_ms()` call becomes the explicit `now` argument. -/

structure FailsafeState where
  active : Bool
  lastActiveSourceTime : ℕ
deriving DecidableEq, Repr

/-- `FailsafeInit`: `failsafe_active = false`, timestamp := current time. -/
def FailsafeInit (now : ℕ) : FailsafeState :=
  ⟨false, now⟩

/-- `FailsafeUpdate(rc_active, wifi_active)` from `stm32/main/failsafe.cpp`:
returns the updated state together with the returned `failsafe_active`. -/
def FailsafeUpdate (now : ℕ) (rcActive wifiActive : Bool)
    (s : FailsafeState) : FailsafeState × Bool :=
  let hasActive := rcActive || wifiActive
  if hasActive then
    (⟨false, now⟩, false)
  else if FAILSAFE_TIMEOUT_MS ≤ u32sub now s.lastActiveSourceTime then
    (⟨true, s.lastActiveSourceTime⟩, true)
  else
    (s, s.active)

/-- `FailsafeIsActive` just reads the stored flag. -/
def FailsafeIsActive (s : FailsafeState) : Bool := s.active

/-! Section: Actuation limiter

Embeds `ApplySlewRate` from `stm32/main/main.cpp` lines 31-40 (the esp32_s3
target calls an `ApplySlewRate` of identical signature and call pattern from
`slew_rate.hpp`, which matches spec §4.5 word for word; we use the stm32
definition for both).  `float` becomes `ℚ`, `dt_ms : uint32_t` stays `ℕ`. -/

/-- `ApplySlewRate(target, current, max_per_sec, dt_ms)`. -/
def ApplySlewRate (target current maxPerSec : ℚ) (dtMs : ℕ) : ℚ :=
  let maxChange := maxPerSec * ((dtMs : ℚ) / 1000)
  let diff := target - current
  if maxChange < diff then current + maxChange
  else if diff < -maxChange then current - maxChange
  else target

/-! Section: Command clamping -/

/-- Modelled from the spec: `rc_vehicle::ClampNormalized` (declared in
`rc_vehicle_common.hpp`, whose body is not under `src/`): spec §6 —
`submit_command` "clamps and stores", and §8 — fields clamped into the closed
range `[-1, 1]` (throttle = 5.0 becomes 1.0). -/
def ClampNormalized (v : ℚ) : ℚ :=
  if 1 < v then 1 else if v < -1 then -1 else v

/-- The clamping performed by `UartBridgeSendCommand` in
`esp32/main/uart_bridge.cpp` lines 62-68, modelled as the pair of values
handed on to the bridge transmit path. -/
def UartBridgeSendCommand (throttle steering : ℚ) : ℚ × ℚ :=
  let t1 := if 1 < throttle then 1 else throttle
  let t2 := if t1 < -1 then -1 else t1
  let s1 := if 1 < steering then 1 else steering
  let s2 := if s1 < -1 then -1 else s1
  (t2, s2)

/-! Section: RC pulse capture ISR

Embeds `gpio_isr_handler` from `esp32_s3/main/rc_input.cpp` lines 25-59.  The
six static `uint32_t` cells become `RcInputState`; the GPIO level read and
`esp_timer_get_time()` become the `level` / `nowUs` arguments. -/

structure RcInputState where
  lastThrottlePulseTimeUs : ℕ
  lastSteeringPulseTimeUs : ℕ
  lastThrottlePulseWidthUs : ℕ
  lastSteeringPulseWidthUs : ℕ
  lastRiseThrottleUs : ℕ
  lastRiseSteeringUs : ℕ
deriving DecidableEq, Repr

/-- `gpio_isr_handler(arg = gpio_num)` with `level = gpio_get_level(pin)` and
`now_us = esp_timer_get_time()`; `level = true` is a rising edge. -/
def gpioIsrHandler (gpioNum : ℕ) (level : Bool) (nowUs : ℕ)
    (s : RcInputState) : RcInputState :=
  if level then
    if gpioNum = RC_IN_THROTTLE_PIN then
      { s with lastRiseThrottleUs := nowUs }
    else if gpioNum = RC_IN_STEERING_PIN then
      { s with lastRiseSteeringUs := nowUs }
    else s
  else
    if gpioNum = RC_IN_THROTTLE_PIN ∧ s.lastRiseThrottleUs ≠ 0 then
      let widthUs := u32sub nowUs s.lastRiseThrottleUs
      if RC_IN_PULSE_MIN_US ≤ widthUs ∧ widthUs ≤ RC_IN_PULSE_MAX_US then
        { s with lastThrottlePulseWidthUs := widthUs,
                 lastThrottlePulseTimeUs := nowUs,
                 lastRiseThrottleUs := 0 }
      else
        { s with lastRiseThrottleUs := 0 }
    else if gpioNum = RC_IN_STEERING_PIN ∧ s.lastRiseSteeringUs ≠ 0 then
      let widthUs := u32sub nowUs s.lastRiseSteeringUs
      if RC_IN_PULSE_MIN_US ≤ widthUs ∧ widthUs ≤ RC_IN_PULSE_MAX_US then
        { s with lastSteeringPulseWidthUs := widthUs,
                 lastSteeringPulseTimeUs := nowUs,
                 lastRiseSteeringUs := 0 }
      else
        { s with lastRiseSteeringUs := 0 }
    else s

/-! Section: Vehicle control tick (esp32_s3)

Embeds one iteration of the `while (1)` body of `vehicle_control_task` in
`esp32_s3/main/vehicle_control.cpp` lines 59-182.  The task-local variables
and the single-slot FreeRTOS command queue (`xQueueCreate(1, ...)` drained
with `xQueueReceive(..., 0)`) become `CtrlState`; `NowMs()` becomes the `now`
argument; the `RcInputReadThrottle/Steering()` poll results become the
`rcT`/`rcS` arguments; PWM driver calls become an explicit `PwmAction` output
list (telemetry emission and the IMU sample contents are pure outputs with no
effect on control state and are not modelled beyond their timestamps). -/

structure WifiCmd where
  throttle : ℚ
  steering : ℚ
deriving DecidableEq, Repr

inductive PwmAction where
  | setNeutral : PwmAction
  | setThrottle : ℚ → PwmAction
  | setSteering : ℚ → PwmAction
deriving DecidableEq, Repr

structure CtrlState where
  commandedThrottle : ℚ
  commandedSteering : ℚ
  appliedThrottle : ℚ
  appliedSteering : ℚ
  rcActive : Bool
  wifiActive : Bool
  lastPwmUpdate : ℕ
  lastRcPoll : ℕ
  lastImuRead : ℕ
  lastTelemSend : ℕ
  lastFailsafeUpdate : ℕ
  lastWifiCmdMs : ℕ
  failsafe : FailsafeState
  cmdQueue : Option WifiCmd
deriving DecidableEq, Repr

/-- Lines 63-77: poll RC-in at 50 Hz; RC preempts Wi-Fi. -/
def rcPollStage (rcEnabled : Bool) (now : ℕ) (rcT rcS : Option ℚ)
    (s : CtrlState) : CtrlState :=
  if rcEnabled ∧ RC_IN_POLL_INTERVAL_MS ≤ u32sub now s.lastRcPoll then
    let active := rcT.isSome ∧ rcS.isSome
    match rcT, rcS with
    | some t, some u =>
        { s with lastRcPoll := now, rcActive := true,
                 commandedThrottle := t, commandedSteering := u }
    | _, _ => { s with lastRcPoll := now, rcActive := decide active }
  else if !rcEnabled then
    { s with rcActive := false }
  else s

/-- Lines 79-88: drain the single-slot Wi-Fi command queue; the command is
accepted only when RC is not active. -/
def wifiCmdStage (now : ℕ) (s : CtrlState) : CtrlState :=
  match s.cmdQueue with
  | some cmd =>
      if !s.rcActive then
        { s with cmdQueue := none,
                 commandedThrottle := cmd.throttle,
                 commandedSteering := cmd.steering,
                 lastWifiCmdMs := now }
      else
        { s with cmdQueue := none }
  | none => s

/-- Lines 90-92: recompute `wifi_active` (takes the `WIFI_CMD_TIMEOUT_MS`
value from `config_common.hpp` as a parameter). -/
def wifiActiveStage (wifiCmdTimeoutMs now : ℕ) (s : CtrlState) : CtrlState :=
  { s with wifiActive :=
      !s.rcActive && decide (s.lastWifiCmdMs ≠ 0)
        && decide (u32sub now s.lastWifiCmdMs < wifiCmdTimeoutMs) }

/-- Lines 95-98: the IMU read affects only its poll timestamp here. -/
def imuStage (imuEnabled : Bool) (now : ℕ) (s : CtrlState) : CtrlState :=
  if imuEnabled ∧ IMU_READ_INTERVAL_MS ≤ u32sub now s.lastImuRead then
    { s with lastImuRead := now }
  else s

/-- Lines 100-111: every 10 ms run `FailsafeUpdate`; when it reports active,
force commanded and applied to neutral and set the PWM output to neutral
immediately. -/
def failsafeStage (now : ℕ) (s : CtrlState) : CtrlState × List PwmAction :=
  if 10 ≤ u32sub now s.lastFailsafeUpdate then
    let fs := FailsafeUpdate now s.rcActive s.wifiActive s.failsafe
    if fs.2 then
      ({ s with lastFailsafeUpdate := now, failsafe := fs.1,
                commandedThrottle := 0, commandedSteering := 0,
                appliedThrottle := 0, appliedSteering := 0 },
       [PwmAction.setNeutral])
    else
      ({ s with lastFailsafeUpdate := now, failsafe := fs.1 }, [])
  else (s, [])

/-- Lines 113-125: every 20 ms slew `applied` toward `commanded` and write
the PWM outputs. -/
def pwmStage (now : ℕ) (s : CtrlState) : CtrlState × List PwmAction :=
  if PWM_UPDATE_INTERVAL_MS ≤ u32sub now s.lastPwmUpdate then
    let dtMs := u32sub now s.lastPwmUpdate
    let at1 := ApplySlewRate s.commandedThrottle s.appliedThrottle
                 SLEW_RATE_THROTTLE_MAX_PER_SEC dtMs
    let as1 := ApplySlewRate s.commandedSteering s.appliedSteering
                 SLEW_RATE_STEERING_MAX_PER_SEC dtMs
    ({ s with lastPwmUpdate := now, appliedThrottle := at1,
              appliedSteering := as1 },
     [PwmAction.setThrottle at1, PwmAction.setSteering as1])
  else (s, [])

/-- Lines 127-129: telemetry emission affects only its timestamp here. -/
def telemStage (now : ℕ) (s : CtrlState) : CtrlState :=
  if TELEM_SEND_INTERVAL_MS ≤ u32sub now s.lastTelemSend then
    { s with lastTelemSend := now }
  else s

/-- The state reaching the failsafe block: RC poll, Wi-Fi command drain,
Wi-Fi activity recomputation and IMU poll applied in program order. -/
def preFailsafeState (wifiCmdTimeoutMs : ℕ) (rcEnabled imuEnabled : Bool)
    (now : ℕ) (rcT rcS : Option ℚ) (s : CtrlState) : CtrlState :=
  imuStage imuEnabled now
    (wifiActiveStage wifiCmdTimeoutMs now
      (wifiCmdStage now (rcPollStage rcEnabled now rcT rcS s)))

/-- One full iteration of the `vehicle_control_task` loop body, returning the
new state and the PWM driver calls issued, in order. -/
def vehicleControlTick (wifiCmdTimeoutMs : ℕ) (rcEnabled imuEnabled : Bool)
    (now : ℕ) (rcT rcS : Option ℚ) (s : CtrlState) :
    CtrlState × List PwmAction :=
  let s4 := preFailsafeState wifiCmdTimeoutMs rcEnabled imuEnabled now rcT rcS s
  let p5 := failsafeStage now s4
  let p6 := pwmStage now p5.1
  (telemStage now p6.1, p5.2 ++ p6.2)

/-! Section: UART bridge liveness (esp32)

Embeds `UartBridgeReceivePong` / `UartBridgeIsMcuConnected` from
`esp32/main/uart_bridge.cpp` lines 78-89.  The static `s_last_pong_tick`
(initially 0) becomes an explicit value; `xTaskGetTickCount()` becomes the
`nowTick` argument; `PONG_TIMEOUT_TICKS = pdMS_TO_TICKS(PONG_TIMEOUT_MS)` is
passed as the `timeoutTicks` parameter (the ms-to-tick conversion factor is a
FreeRTOS configuration constant outside the repository). -/

/-- `UartBridgeReceivePong`: when a Pong frame is available the last-pong
tick is set to the current tick count. -/
def UartBridgeReceivePong (hasPong : Bool) (nowTick lastPongTick : ℕ) : ℕ :=
  if hasPong then nowTick else lastPongTick

/-- `UartBridgeIsMcuConnected`. -/
def UartBridgeIsMcuConnected (timeoutTicks nowTick lastPongTick : ℕ) : Bool :=
  if lastPongTick = 0 then false
  else decide (u32sub nowTick lastPongTick < timeoutTicks)

/-! Section: Link protocol codec

Modelled from the spec: the frame codec body (`uart_bridge_base.hpp`, shared
by both UART bridge targets) is not under `src/`; only its callers and the
wire constants are.  Per spec §4.2 and `esp32/main/config.hpp`: frames are
`prefix 0xAA 0x55, version 0x01, msg_type, one length byte, payload, one
integrity byte over version+type+length+payload`; the receiver resynchronises
by scanning for the prefix pair and drops malformed frames silently.  The
integrity byte is modelled as a byte-sum checksum (spec §9 leaves the exact
algorithm open).  Bytes are `ℕ` values below 256. -/

/-- `UART_FRAME_PREFIX_0` from `esp32/main/config.hpp`. -/
def UART_FRAME_PREFIX_0 : ℕ := 170

/-- `UART_FRAME_PREFIX_1` from `esp32/main/config.hpp`. -/
def UART_FRAME_PREFIX_1 : ℕ := 85

/-- `UART_PROTOCOL_VERSION` from `esp32/main/config.hpp`. -/
def UART_PROTOCOL_VERSION : ℕ := 1

/-- A parsed link message: type code plus raw payload bytes. -/
structure LinkMsg where
  msgType : ℕ
  payload : List ℕ
deriving DecidableEq, Repr

/-- Integrity byte over version + type + length + payload (byte sum mod 256). -/
def linkChecksum (ver ty : ℕ) (payload : List ℕ) : ℕ :=
  (ver + ty + payload.length + payload.sum) % 256

/-- Serialise one frame. -/
def encodeFrame (m : LinkMsg) : List ℕ :=
  UART_FRAME_PREFIX_0 :: UART_FRAME_PREFIX_1 :: UART_PROTOCOL_VERSION ::
    m.msgType :: m.payload.length :: m.payload ++
    [linkChecksum UART_PROTOCOL_VERSION m.msgType m.payload]

/-- Try to parse one complete frame at the head of the buffer; on success
return the message and the unconsumed remainder. -/
def parseFrame : List ℕ → Option (LinkMsg × List ℕ)
  | p0 :: p1 :: ver :: ty :: len :: rest =>
      if p0 = UART_FRAME_PREFIX_0 ∧ p1 = UART_FRAME_PREFIX_1 ∧
          ver = UART_PROTOCOL_VERSION ∧ len + 1 ≤ rest.length then
        let payload := rest.take len
        if rest.getD len 0 = linkChecksum ver ty payload then
          some (⟨ty, payload⟩, rest.drop (len + 1))
        else none
      else none
  | _ => none

/-- Fuel-indexed decode loop: parse a frame at the head when possible,
otherwise skip one byte and rescan (prefix-pair resynchronisation). -/
def decodeSteps : ℕ → List ℕ → List LinkMsg
  | 0, _ => []
  | _ + 1, [] => []
  | fuel + 1, b :: rest =>
      match parseFrame (b :: rest) with
      | some (m, rem) => m :: decodeSteps fuel rem
      | none => decodeSteps fuel rest

/-- Decode a whole receive buffer (one fuel unit per byte suffices because
every loop step consumes at least one byte). -/
def decodeStream (input : List ℕ) : List LinkMsg :=
  decodeSteps input.length input

/-- `true` when some nonempty suffix of the buffer, with `next` appended,
parses as a complete frame: a resynchronisation point inside the buffer at
which the scanner would find a well-formed frame. -/
def anyTailFrame (l next : List ℕ) : Bool :=
  match l with
  | [] => false
  | _ :: t => (parseFrame (l ++ next)).isSome || anyTailFrame t next

/-- The three corruption shapes named by the spec: bad prefix, bad checksum,
truncation. -/
inductive Corruption where
  | badPrefixByte : ℕ → Corruption
  | badChecksumByte : ℕ → Corruption
  | truncatedAt : ℕ → Corruption
deriving DecidableEq, Repr

/-- Apply a corruption to the encoding of a frame. -/
def corruptBytes : Corruption → LinkMsg → List ℕ
  | Corruption.badPrefixByte p, m => p :: (encodeFrame m).tail
  | Corruption.badChecksumByte c, m => (encodeFrame m).dropLast ++ [c]
  | Corruption.truncatedAt k, m => (encodeFrame m).take k

/-- The corruption really breaks the frame: the substituted byte differs from
the correct one, respectively the truncation point lies strictly inside the
frame and the truncated bytes followed by `next` do not themselves parse as a
frame (a coincidental checksum match over the spliced bytes would be a valid
frame on the wire, not a detectable corruption). -/
def corruptionDetectable (c : Corruption) (m : LinkMsg) (next : List ℕ) :
    Prop :=
  match c with
  | Corruption.badPrefixByte p => p ≠ UART_FRAME_PREFIX_0
  | Corruption.badChecksumByte cb =>
      cb ≠ linkChecksum UART_PROTOCOL_VERSION m.msgType m.payload
  | Corruption.truncatedAt k =>
      k < (encodeFrame m).length ∧
        parseFrame ((encodeFrame m).take k ++ next) = none

instance (c : Corruption) (m : LinkMsg) (next : List ℕ) :
    Decidable (corruptionDetectable c m next) := by
  unfold corruptionDetectable
  cases c <;> infer_instance

/-! Section: Claim theorems -/

/-- On inputs below `2^32` with `b ≤ a`, `u32sub` is plain subtraction. -/
theorem u32sub_of_le (a b : ℕ) (hb : b ≤ a) (ha : a - b < u32Mod)
    (hbm : b < u32Mod) : u32sub a b = a - b := by
  unfold u32sub
  rw [Nat.mod_eq_of_lt hbm]
  have h1 : a + u32Mod - b = (a - b) + u32Mod := by omega
  rw [h1, Nat.add_mod_right, Nat.mod_eq_of_lt ha]

/-- C1: after `FailsafeInit` the state is inactive; `FailsafeUpdate` makes
the state inactive with `last_active_source_time := now` whenever a source is
active, and with no active source it turns (or stays) active exactly when
`now - last_active_source_time >= FAILSAFE_TIMEOUT_MS` and is otherwise left
unchanged. -/
theorem FailsafeUpdate_spec (now : ℕ) (rc wifi : Bool) (s : FailsafeState) :
    (FailsafeInit now).active = false ∧
    ((rc || wifi) = true →
      FailsafeUpdate now rc wifi s = (⟨false, now⟩, false)) ∧
    ((rc || wifi) = false →
      (FAILSAFE_TIMEOUT_MS ≤ u32sub now s.lastActiveSourceTime →
        FailsafeUpdate now rc wifi s = (⟨true, s.lastActiveSourceTime⟩, true)) ∧
      (u32sub now s.lastActiveSourceTime < FAILSAFE_TIMEOUT_MS →
        FailsafeUpdate now rc wifi s = (s, s.active)) ∧
      (FailsafeUpdate now rc wifi s).1.active =
        (decide (FAILSAFE_TIMEOUT_MS ≤ u32sub now s.lastActiveSourceTime)
          || s.active)) := by
  refine ⟨rfl, ?_, ?_⟩
  · intro h
    simp [FailsafeUpdate, h]
  · intro h
    refine ⟨?_, ?_, ?_⟩
    · intro hle
      simp [FailsafeUpdate, h, hle]
    · intro hlt
      simp [FailsafeUpdate, h, Nat.not_le.mpr hlt]
    · by_cases hc : FAILSAFE_TIMEOUT_MS ≤ u32sub now s.lastActiveSourceTime
      · simp [FailsafeUpdate, h, hc]
      · simp [FailsafeUpdate, h, hc]

/-- C1 witness: with no active source, 300 ms after the last activity the
failsafe trips. -/
theorem FailsafeUpdate_spec_witness :
    (false || false) = false ∧
    FAILSAFE_TIMEOUT_MS ≤ u32sub 300 0 ∧
    FailsafeUpdate 300 false false ⟨false, 0⟩ = (⟨true, 0⟩, true) := by
  refine ⟨rfl, by decide, ?_⟩
  exact ((FailsafeUpdate_spec 300 false false ⟨false, 0⟩).2.2 rfl).1 (by decide)

/-- C4: `ApplySlewRate` returns the commanded target when it is within
`max_rate * dt` of the current value and otherwise moves the current value by
exactly `max_rate * dt` toward the target; the change is always bounded by
`max_rate * dt`, with equality only when the gap is at least `max_rate * dt`. -/
theorem ApplySlewRate_spec (target current maxPerSec : ℚ) (dtMs : ℕ)
    (h : 0 ≤ maxPerSec) :
    (|target - current| ≤ maxPerSec * ((dtMs : ℚ) / 1000) →
      ApplySlewRate target current maxPerSec dtMs = target) ∧
    (maxPerSec * ((dtMs : ℚ) / 1000) < |target - current| →
      ApplySlewRate target current maxPerSec dtMs =
        current + (if current ≤ target then maxPerSec * ((dtMs : ℚ) / 1000)
                   else -(maxPerSec * ((dtMs : ℚ) / 1000)))) ∧
    |ApplySlewRate target current maxPerSec dtMs - current| ≤
      maxPerSec * ((dtMs : ℚ) / 1000) ∧
    (|ApplySlewRate target current maxPerSec dtMs - current| =
        maxPerSec * ((dtMs : ℚ) / 1000) →
      maxPerSec * ((dtMs : ℚ) / 1000) ≤ |target - current|) := by
  have hdt : (0 : ℚ) ≤ (dtMs : ℚ) / 1000 := by positivity
  have hmc : 0 ≤ maxPerSec * ((dtMs : ℚ) / 1000) := mul_nonneg h hdt
  have heq : ApplySlewRate target current maxPerSec dtMs =
      if maxPerSec * ((dtMs : ℚ) / 1000) < target - current
      then current + maxPerSec * ((dtMs : ℚ) / 1000)
      else if target - current < -(maxPerSec * ((dtMs : ℚ) / 1000))
      then current - maxPerSec * ((dtMs : ℚ) / 1000)
      else target := rfl
  by_cases h1 : maxPerSec * ((dtMs : ℚ) / 1000) < target - current
  · rw [heq, if_pos h1]
    refine ⟨?_, ?_, ?_, ?_⟩
    · intro habs
      have hd := le_abs_self (target - current)
      linarith
    · intro _
      rw [if_pos (show current ≤ target by linarith)]
    · simp only [add_sub_cancel_left]
      rw [abs_of_nonneg hmc]
    · intro _
      have hd := le_abs_self (target - current)
      linarith
  · by_cases h2 : target - current < -(maxPerSec * ((dtMs : ℚ) / 1000))
    · rw [heq, if_neg h1, if_pos h2]
      refine ⟨?_, ?_, ?_, ?_⟩
      · intro habs
        have hd := neg_abs_le (target - current)
        linarith
      · intro _
        rw [if_neg (show ¬current ≤ target by intro hcl; linarith),
          sub_eq_add_neg]
      · simp only [sub_sub_cancel_left]
        rw [abs_neg, abs_of_nonneg hmc]
      · intro _
        have hd := neg_abs_le (target - current)
        linarith
    · rw [heq, if_neg h1, if_neg h2]
      have habs : |target - current| ≤ maxPerSec * ((dtMs : ℚ) / 1000) :=
        abs_le.mpr ⟨by linarith, by linarith⟩
      exact ⟨fun _ => rfl, fun hlt => absurd hlt (not_lt.mpr habs), habs,
        fun hq => le_of_eq hq.symm⟩

/-- C4 witness: with `max_rate = 1/2` per second and `dt = 1000` ms, a step
from 0 toward 1 moves by exactly `1/2`. -/
theorem ApplySlewRate_spec_witness :
    (0 : ℚ) ≤ 1 / 2 ∧
    (1 / 2 : ℚ) * ((1000 : ℚ) / 1000) < |(1 : ℚ) - 0| ∧
    ApplySlewRate 1 0 (1 / 2) 1000 = 1 / 2 := by
  refine ⟨by norm_num, by norm_num, ?_⟩
  have h := (ApplySlewRate_spec 1 0 (1 / 2) 1000 (by norm_num)).2.1
    (by norm_num)
  rw [h]
  norm_num

/-- C5: both network-command ingress paths clamp throttle and steering into
the closed range `[-1, 1]` before storing or transmitting (in particular
throttle = 5 is clamped to 1). -/
theorem command_clamp_in_range (t s : ℚ) :
    -1 ≤ ClampNormalized t ∧ ClampNormalized t ≤ 1 ∧
    -1 ≤ ClampNormalized s ∧ ClampNormalized s ≤ 1 ∧
    -1 ≤ (UartBridgeSendCommand t s).1 ∧ (UartBridgeSendCommand t s).1 ≤ 1 ∧
    -1 ≤ (UartBridgeSendCommand t s).2 ∧ (UartBridgeSendCommand t s).2 ≤ 1 ∧
    ClampNormalized 5 = 1 := by
  unfold ClampNormalized UartBridgeSendCommand
  simp only []
  split_ifs <;> norm_num <;> (repeat' apply And.intro) <;> linarith

/-- C6: on a falling edge with a recorded rising edge, the ISR stores
`(width, now)` for the channel exactly when `width = now - last_rise` lies
within `[RC_IN_PULSE_MIN_US, RC_IN_PULSE_MAX_US]`, and otherwise leaves the
previously stored width and timestamp of that channel unchanged. -/
theorem gpio_isr_falling_edge_spec (nowUs : ℕ) (s : RcInputState) :
    (s.lastRiseThrottleUs ≠ 0 →
      (RC_IN_PULSE_MIN_US ≤ u32sub nowUs s.lastRiseThrottleUs ∧
          u32sub nowUs s.lastRiseThrottleUs ≤ RC_IN_PULSE_MAX_US →
        (gpioIsrHandler RC_IN_THROTTLE_PIN false nowUs s).lastThrottlePulseWidthUs =
            u32sub nowUs s.lastRiseThrottleUs ∧
        (gpioIsrHandler RC_IN_THROTTLE_PIN false nowUs s).lastThrottlePulseTimeUs =
            nowUs) ∧
      (¬(RC_IN_PULSE_MIN_US ≤ u32sub nowUs s.lastRiseThrottleUs ∧
          u32sub nowUs s.lastRiseThrottleUs ≤ RC_IN_PULSE_MAX_US) →
        (gpioIsrHandler RC_IN_THROTTLE_PIN false nowUs s).lastThrottlePulseWidthUs =
            s.lastThrottlePulseWidthUs ∧
        (gpioIsrHandler RC_IN_THROTTLE_PIN false nowUs s).lastThrottlePulseTimeUs =
            s.lastThrottlePulseTimeUs)) ∧
    (s.lastRiseSteeringUs ≠ 0 →
      (RC_IN_PULSE_MIN_US ≤ u32sub nowUs s.lastRiseSteeringUs ∧
          u32sub nowUs s.lastRiseSteeringUs ≤ RC_IN_PULSE_MAX_US →
        (gpioIsrHandler RC_IN_STEERING_PIN false nowUs s).lastSteeringPulseWidthUs =
            u32sub nowUs s.lastRiseSteeringUs ∧
        (gpioIsrHandler RC_IN_STEERING_PIN false nowUs s).lastSteeringPulseTimeUs =
            nowUs) ∧
      (¬(RC_IN_PULSE_MIN_US ≤ u32sub nowUs s.lastRiseSteeringUs ∧
          u32sub nowUs s.lastRiseSteeringUs ≤ RC_IN_PULSE_MAX_US) →
        (gpioIsrHandler RC_IN_STEERING_PIN false nowUs s).lastSteeringPulseWidthUs =
            s.lastSteeringPulseWidthUs ∧
        (gpioIsrHandler RC_IN_STEERING_PIN false nowUs s).lastSteeringPulseTimeUs =
            s.lastSteeringPulseTimeUs)) := by
  constructor
  · intro hrise
    constructor
    · intro hin
      simp [gpioIsrHandler, hrise, hin]
    · intro hout
      simp [gpioIsrHandler, hrise, hout]
  · intro hrise
    have hpin : ¬(RC_IN_STEERING_PIN = RC_IN_THROTTLE_PIN ∧
        s.lastRiseThrottleUs ≠ 0) := by
      intro hc
      exact absurd hc.1 (by decide)
    constructor
    · intro hin
      simp [gpioIsrHandler, hpin, hrise, hin]
    · intro hout
      simp [gpioIsrHandler, hpin, hrise, hout]

/-- C6 witness: a 1500 µs pulse ending at t = 2500 µs is stored; a 2600 µs
pulse ending at t = 2700 µs is rejected and the stored reading survives. -/
theorem gpio_isr_falling_edge_spec_witness :
    (⟨7, 8, 9, 10, 1000, 100⟩ : RcInputState).lastRiseThrottleUs ≠ 0 ∧
    RC_IN_PULSE_MIN_US ≤ u32sub 2500 1000 ∧ u32sub 2500 1000 ≤ RC_IN_PULSE_MAX_US ∧
    (gpioIsrHandler RC_IN_THROTTLE_PIN false 2500
        ⟨7, 8, 9, 10, 1000, 100⟩).lastThrottlePulseWidthUs = u32sub 2500 1000 ∧
    ¬(RC_IN_PULSE_MIN_US ≤ u32sub 2700 100 ∧
        u32sub 2700 100 ≤ RC_IN_PULSE_MAX_US) ∧
    (gpioIsrHandler RC_IN_STEERING_PIN false 2700
        ⟨7, 8, 9, 10, 1000, 100⟩).lastSteeringPulseWidthUs = 10 := by
  refine ⟨by decide, by decide, by decide, ?_, by decide, ?_⟩
  · exact (((gpio_isr_falling_edge_spec 2500 ⟨7, 8, 9, 10, 1000, 100⟩).1
      (by decide)).1 (by decide)).1
  · exact (((gpio_isr_falling_edge_spec 2700 ⟨7, 8, 9, 10, 1000, 100⟩).2
      (by decide)).2 (by decide)).1

/-- C9: a falling edge without a recorded rising edge (sentinel 0) leaves the
whole ISR state unchanged, and after any processed falling edge the last-rise
timestamp of the edge's channel is 0. -/
theorem gpio_isr_rise_sentinel_spec (nowUs : ℕ) (s : RcInputState) :
    (s.lastRiseThrottleUs = 0 →
      gpioIsrHandler RC_IN_THROTTLE_PIN false nowUs s = s) ∧
    (s.lastRiseSteeringUs = 0 →
      gpioIsrHandler RC_IN_STEERING_PIN false nowUs s = s) ∧
    (gpioIsrHandler RC_IN_THROTTLE_PIN false nowUs s).lastRiseThrottleUs = 0 ∧
    (gpioIsrHandler RC_IN_STEERING_PIN false nowUs s).lastRiseSteeringUs = 0 := by
  have hpin : ¬(RC_IN_STEERING_PIN = RC_IN_THROTTLE_PIN ∧
      s.lastRiseThrottleUs ≠ 0) := by
    intro hc
    exact absurd hc.1 (by decide)
  have hne : RC_IN_THROTTLE_PIN ≠ RC_IN_STEERING_PIN := by decide
  refine ⟨?_, ?_, ?_, ?_⟩
  · intro h0
    simp [gpioIsrHandler, h0, hne]
  · intro h0
    simp [gpioIsrHandler, hpin, h0]
  · by_cases h0 : s.lastRiseThrottleUs = 0
    · simp [gpioIsrHandler, h0, hne]
    · by_cases hin : RC_IN_PULSE_MIN_US ≤ u32sub nowUs s.lastRiseThrottleUs ∧
          u32sub nowUs s.lastRiseThrottleUs ≤ RC_IN_PULSE_MAX_US
      · simp [gpioIsrHandler, h0, hin]
      · simp [gpioIsrHandler, h0, hin]
  · by_cases h0 : s.lastRiseSteeringUs = 0
    · simp [gpioIsrHandler, hpin, h0]
    · by_cases hin : RC_IN_PULSE_MIN_US ≤ u32sub nowUs s.lastRiseSteeringUs ∧
          u32sub nowUs s.lastRiseSteeringUs ≤ RC_IN_PULSE_MAX_US
      · simp [gpioIsrHandler, hpin, h0, hin]
      · simp [gpioIsrHandler, hpin, h0, hin]

/-- C9 witness: with no recorded rise the falling edge is a no-op, and a
processed falling edge resets the rise timestamp to 0. -/
theorem gpio_isr_rise_sentinel_spec_witness :
    (⟨7, 8, 9, 10, 0, 100⟩ : RcInputState).lastRiseThrottleUs = 0 ∧
    gpioIsrHandler RC_IN_THROTTLE_PIN false 2500 ⟨7, 8, 9, 10, 0, 100⟩ =
      ⟨7, 8, 9, 10, 0, 100⟩ ∧
    (gpioIsrHandler RC_IN_STEERING_PIN false 2500
        ⟨7, 8, 9, 10, 0, 100⟩).lastRiseSteeringUs = 0 := by
  refine ⟨by decide, ?_, ?_⟩
  · exact (gpio_isr_rise_sentinel_spec 2500 ⟨7, 8, 9, 10, 0, 100⟩).1 (by decide)
  · exact (gpio_isr_rise_sentinel_spec 2500 ⟨7, 8, 9, 10, 0, 100⟩).2.2.2

/-- C10: `UartBridgeIsMcuConnected` returns false while the last-pong tick
still holds the sentinel 0 (no Pong recorded yet), and with a recorded Pong
it returns true exactly when the time since that Pong is below the timeout;
`UartBridgeReceivePong` records the Pong arrival tick. -/
theorem mcu_connected_spec (timeoutTicks nowTick lastPong : ℕ) :
    UartBridgeIsMcuConnected timeoutTicks nowTick 0 = false ∧
    (lastPong ≠ 0 →
      UartBridgeIsMcuConnected timeoutTicks nowTick lastPong =
        decide (u32sub nowTick lastPong < timeoutTicks)) ∧
    UartBridgeReceivePong true nowTick lastPong = nowTick ∧
    UartBridgeReceivePong false nowTick lastPong = lastPong := by
  refine ⟨rfl, ?_, rfl, rfl⟩
  intro h
  simp [UartBridgeIsMcuConnected, h]

/-- C10 witness: a Pong recorded at tick 100 keeps the link alive at tick 400
with a 600-tick timeout. -/
theorem mcu_connected_spec_witness :
    (100 : ℕ) ≠ 0 ∧ UartBridgeIsMcuConnected 600 400 100 = true := by
  refine ⟨by decide, ?_⟩
  rw [(mcu_connected_spec 600 400 100).2.1 (by decide)]
  decide

/-- Slewing with neutral target from neutral stays at neutral. -/
theorem ApplySlewRate_zero (maxPerSec : ℚ) (dtMs : ℕ) (h : 0 ≤ maxPerSec) :
    ApplySlewRate 0 0 maxPerSec dtMs = 0 := by
  have hmc : 0 ≤ maxPerSec * ((dtMs : ℚ) / 1000) := mul_nonneg h (by positivity)
  simp only [ApplySlewRate]
  rw [if_neg (by push_neg; linarith), if_neg (by push_neg; linarith)]

/-- `wifiActiveStage` touches only the `wifiActive` flag. -/
theorem wifiActiveStage_fields (w now : ℕ) (s : CtrlState) :
    (wifiActiveStage w now s).commandedThrottle = s.commandedThrottle ∧
    (wifiActiveStage w now s).commandedSteering = s.commandedSteering ∧
    (wifiActiveStage w now s).cmdQueue = s.cmdQueue ∧
    (wifiActiveStage w now s).lastWifiCmdMs = s.lastWifiCmdMs ∧
    (wifiActiveStage w now s).rcActive = s.rcActive ∧
    (wifiActiveStage w now s).failsafe = s.failsafe :=
  ⟨rfl, rfl, rfl, rfl, rfl, rfl⟩

/-- `imuStage` touches only the IMU poll timestamp. -/
theorem imuStage_fields (b : Bool) (now : ℕ) (s : CtrlState) :
    (imuStage b now s).commandedThrottle = s.commandedThrottle ∧
    (imuStage b now s).commandedSteering = s.commandedSteering ∧
    (imuStage b now s).cmdQueue = s.cmdQueue ∧
    (imuStage b now s).lastWifiCmdMs = s.lastWifiCmdMs ∧
    (imuStage b now s).rcActive = s.rcActive ∧
    (imuStage b now s).wifiActive = s.wifiActive ∧
    (imuStage b now s).failsafe = s.failsafe := by
  unfold imuStage
  split_ifs <;> exact ⟨rfl, rfl, rfl, rfl, rfl, rfl, rfl⟩

/-- `pwmStage` never changes commanded values, the queue, or the Wi-Fi
command timestamp. -/
theorem pwmStage_cmd_fields (now : ℕ) (s : CtrlState) :
    (pwmStage now s).1.commandedThrottle = s.commandedThrottle ∧
    (pwmStage now s).1.commandedSteering = s.commandedSteering ∧
    (pwmStage now s).1.cmdQueue = s.cmdQueue ∧
    (pwmStage now s).1.lastWifiCmdMs = s.lastWifiCmdMs := by
  unfold pwmStage
  split_ifs <;> exact ⟨rfl, rfl, rfl, rfl⟩

/-- `telemStage` touches only the telemetry timestamp. -/
theorem telemStage_fields (now : ℕ) (s : CtrlState) :
    (telemStage now s).commandedThrottle = s.commandedThrottle ∧
    (telemStage now s).commandedSteering = s.commandedSteering ∧
    (telemStage now s).appliedThrottle = s.appliedThrottle ∧
    (telemStage now s).appliedSteering = s.appliedSteering ∧
    (telemStage now s).cmdQueue = s.cmdQueue ∧
    (telemStage now s).lastWifiCmdMs = s.lastWifiCmdMs := by
  unfold telemStage
  split_ifs <;> exact ⟨rfl, rfl, rfl, rfl, rfl, rfl⟩

/-- With RC active the failsafe stage reports inactive and leaves commanded
values, the queue and the Wi-Fi command timestamp alone. -/
theorem failsafeStage_of_rcActive (now : ℕ) (s : CtrlState)
    (h : s.rcActive = true) :
    (failsafeStage now s).1.commandedThrottle = s.commandedThrottle ∧
    (failsafeStage now s).1.commandedSteering = s.commandedSteering ∧
    (failsafeStage now s).1.cmdQueue = s.cmdQueue ∧
    (failsafeStage now s).1.lastWifiCmdMs = s.lastWifiCmdMs := by
  have hfs : FailsafeUpdate now s.rcActive s.wifiActive s.failsafe =
      (⟨false, now⟩, false) := by
    unfold FailsafeUpdate
    rw [h]
    simp
  simp only [failsafeStage, hfs]
  split_ifs <;> first
  | exact ⟨rfl, rfl, rfl, rfl⟩
  | simp_all

/-- `pwmStage` keeps a fully neutral command/actuation state neutral. -/
theorem pwmStage_zero (now : ℕ) (s : CtrlState)
    (hct : s.commandedThrottle = 0) (hcs : s.commandedSteering = 0)
    (hat : s.appliedThrottle = 0) (has2 : s.appliedSteering = 0) :
    (pwmStage now s).1.commandedThrottle = 0 ∧
    (pwmStage now s).1.commandedSteering = 0 ∧
    (pwmStage now s).1.appliedThrottle = 0 ∧
    (pwmStage now s).1.appliedSteering = 0 := by
  have e1 : ApplySlewRate 0 0 SLEW_RATE_THROTTLE_MAX_PER_SEC
      (u32sub now s.lastPwmUpdate) = 0 :=
    ApplySlewRate_zero _ _ (by norm_num [SLEW_RATE_THROTTLE_MAX_PER_SEC])
  have e2 : ApplySlewRate 0 0 SLEW_RATE_STEERING_MAX_PER_SEC
      (u32sub now s.lastPwmUpdate) = 0 :=
    ApplySlewRate_zero _ _ (by norm_num [SLEW_RATE_STEERING_MAX_PER_SEC])
  simp only [pwmStage]
  split_ifs with hp
  · simp [hct, hcs, hat, has2, e1, e2]
  · exact ⟨hct, hcs, hat, has2⟩

/-- Composition of the PWM and telemetry stages keeps a neutral state
neutral. -/
theorem telem_pwm_zero (now : ℕ) (s : CtrlState)
    (hct : s.commandedThrottle = 0) (hcs : s.commandedSteering = 0)
    (hat : s.appliedThrottle = 0) (has2 : s.appliedSteering = 0) :
    (telemStage now (pwmStage now s).1).commandedThrottle = 0 ∧
    (telemStage now (pwmStage now s).1).commandedSteering = 0 ∧
    (telemStage now (pwmStage now s).1).appliedThrottle = 0 ∧
    (telemStage now (pwmStage now s).1).appliedSteering = 0 := by
  have hp := pwmStage_zero now s hct hcs hat has2
  have ht := telemStage_fields now (pwmStage now s).1
  exact ⟨ht.1.trans hp.1, ht.2.1.trans hp.2.1, ht.2.2.1.trans hp.2.2.1,
    ht.2.2.2.1.trans hp.2.2.2⟩

/-- C2: whenever the failsafe block runs in a tick and `FailsafeUpdate`
reports active, the tick ends with commanded and applied throttle/steering
all neutral and the very first PWM action of the tick is the immediate
neutral command (issued before, and independent of, the slew-limited PWM
update). -/
theorem failsafe_tick_forces_neutral (wifiCmdTimeoutMs : ℕ)
    (rcEnabled imuEnabled : Bool) (now : ℕ) (rcT rcS : Option ℚ)
    (s : CtrlState)
    (hdue : 10 ≤ u32sub now (preFailsafeState wifiCmdTimeoutMs rcEnabled
      imuEnabled now rcT rcS s).lastFailsafeUpdate)
    (hact : (FailsafeUpdate now
      (preFailsafeState wifiCmdTimeoutMs rcEnabled imuEnabled now rcT rcS
        s).rcActive
      (preFailsafeState wifiCmdTimeoutMs rcEnabled imuEnabled now rcT rcS
        s).wifiActive
      (preFailsafeState wifiCmdTimeoutMs rcEnabled imuEnabled now rcT rcS
        s).failsafe).2 = true) :
    (vehicleControlTick wifiCmdTimeoutMs rcEnabled imuEnabled now rcT rcS
      s).1.commandedThrottle = 0 ∧
    (vehicleControlTick wifiCmdTimeoutMs rcEnabled imuEnabled now rcT rcS
      s).1.commandedSteering = 0 ∧
    (vehicleControlTick wifiCmdTimeoutMs rcEnabled imuEnabled now rcT rcS
      s).1.appliedThrottle = 0 ∧
    (vehicleControlTick wifiCmdTimeoutMs rcEnabled imuEnabled now rcT rcS
      s).1.appliedSteering = 0 ∧
    ∃ rest, (vehicleControlTick wifiCmdTimeoutMs rcEnabled imuEnabled now rcT
      rcS s).2 = PwmAction.setNeutral :: rest := by
  set s4 := preFailsafeState wifiCmdTimeoutMs rcEnabled imuEnabled now rcT rcS s
    with hs4
  have h5 : failsafeStage now s4 =
      ({ s4 with lastFailsafeUpdate := now,
                 failsafe := (FailsafeUpdate now s4.rcActive s4.wifiActive
                   s4.failsafe).1,
                 commandedThrottle := 0, commandedSteering := 0,
                 appliedThrottle := 0, appliedSteering := 0 },
       [PwmAction.setNeutral]) := by
    simp only [failsafeStage]
    rw [if_pos hdue, if_pos hact]
  simp only [vehicleControlTick, ← hs4, h5]
  refine ⟨(telem_pwm_zero now _ ?_ ?_ ?_ ?_).1,
    (telem_pwm_zero now _ ?_ ?_ ?_ ?_).2.1,
    (telem_pwm_zero now _ ?_ ?_ ?_ ?_).2.2.1,
    (telem_pwm_zero now _ ?_ ?_ ?_ ?_).2.2.2, ⟨_, rfl⟩⟩ <;> rfl

/-- C2 witness: with both sources silent for 300 ms the failsafe fires and
the tick neutralises a fully non-neutral actuation state. -/
theorem failsafe_tick_forces_neutral_witness :
    10 ≤ u32sub 300 (preFailsafeState 500 false false 300 none none
      ⟨1, 1, 1, 1, false, false, 300, 300, 300, 300, 0, 0, ⟨false, 0⟩,
        none⟩).lastFailsafeUpdate ∧
    (FailsafeUpdate 300
      (preFailsafeState 500 false false 300 none none
        ⟨1, 1, 1, 1, false, false, 300, 300, 300, 300, 0, 0, ⟨false, 0⟩,
          none⟩).rcActive
      (preFailsafeState 500 false false 300 none none
        ⟨1, 1, 1, 1, false, false, 300, 300, 300, 300, 0, 0, ⟨false, 0⟩,
          none⟩).wifiActive
      (preFailsafeState 500 false false 300 none none
        ⟨1, 1, 1, 1, false, false, 300, 300, 300, 300, 0, 0, ⟨false, 0⟩,
          none⟩).failsafe).2 = true ∧
    (vehicleControlTick 500 false false 300 none none
      ⟨1, 1, 1, 1, false, false, 300, 300, 300, 300, 0, 0, ⟨false, 0⟩,
        none⟩).1.appliedThrottle = 0 := by
  refine ⟨by decide, by decide, ?_⟩
  exact (failsafe_tick_forces_neutral 500 false false 300 none none
    ⟨1, 1, 1, 1, false, false, 300, 300, 300, 300, 0, 0, ⟨false, 0⟩, none⟩
    (by decide) (by decide)).2.2.1

/-- A due RC poll with both channels fresh stores the RC readings and marks
RC active. -/
theorem rcPollStage_hit (now : ℕ) (t u : ℚ) (s : CtrlState)
    (hpoll : RC_IN_POLL_INTERVAL_MS ≤ u32sub now s.lastRcPoll) :
    rcPollStage true now (some t) (some u) s =
      { s with lastRcPoll := now, rcActive := true,
               commandedThrottle := t, commandedSteering := u } := by
  unfold rcPollStage
  rw [if_pos ⟨rfl, hpoll⟩]

/-- With RC active the Wi-Fi command stage only empties the queue. -/
theorem wifiCmdStage_rcActive (now : ℕ) (s : CtrlState)
    (h : s.rcActive = true) :
    wifiCmdStage now s = { s with cmdQueue := none } := by
  cases hq : s.cmdQueue with
  | none =>
      simp only [wifiCmdStage, hq]
      cases s
      simp_all
  | some c =>
      simp only [wifiCmdStage, hq, h]
      simp

/-- With RC active the Wi-Fi activity flag is recomputed to false. -/
theorem wifiActiveStage_rcActive (w now : ℕ) (s : CtrlState)
    (h : s.rcActive = true) :
    wifiActiveStage w now s = { s with wifiActive := false } := by
  unfold wifiActiveStage
  rw [h]
  rfl

/-- C3: in a tick where the RC inputs are polled and both channels read
fresh values, the commanded throttle and steering at the end of the tick are
exactly the RC readings, and the tick result is entirely independent of
whatever network command sits in the single-slot queue. -/
theorem rc_preemption (wifiCmdTimeoutMs : ℕ) (imuEnabled : Bool) (now : ℕ)
    (t u : ℚ) (s : CtrlState) (q : Option WifiCmd)
    (hpoll : RC_IN_POLL_INTERVAL_MS ≤ u32sub now s.lastRcPoll) :
    (vehicleControlTick wifiCmdTimeoutMs true imuEnabled now (some t) (some u)
      s).1.commandedThrottle = t ∧
    (vehicleControlTick wifiCmdTimeoutMs true imuEnabled now (some t) (some u)
      s).1.commandedSteering = u ∧
    vehicleControlTick wifiCmdTimeoutMs true imuEnabled now (some t) (some u)
        { s with cmdQueue := q } =
      vehicleControlTick wifiCmdTimeoutMs true imuEnabled now (some t) (some u)
        { s with cmdQueue := none } := by
  refine ⟨?_, ?_, ?_⟩
  · simp only [vehicleControlTick, preFailsafeState]
    rw [rcPollStage_hit now t u s hpoll]
    simp only [wifiCmdStage_rcActive, wifiActiveStage_rcActive,
      imuStage_fields, failsafeStage_of_rcActive, pwmStage_cmd_fields,
      telemStage_fields]
  · simp only [vehicleControlTick, preFailsafeState]
    rw [rcPollStage_hit now t u s hpoll]
    simp only [wifiCmdStage_rcActive, wifiActiveStage_rcActive,
      imuStage_fields, failsafeStage_of_rcActive, pwmStage_cmd_fields,
      telemStage_fields]
  · have h12 : wifiCmdStage now (rcPollStage true now (some t) (some u)
        { s with cmdQueue := q }) =
        wifiCmdStage now (rcPollStage true now (some t) (some u)
          { s with cmdQueue := none }) := by
      rw [rcPollStage_hit now t u { s with cmdQueue := q } hpoll,
        rcPollStage_hit now t u { s with cmdQueue := none } hpoll]
      simp only [wifiCmdStage_rcActive]
    simp only [vehicleControlTick, preFailsafeState, h12]

/-- C3 witness: with RC readings (3/4, 0) fresh and a Wi-Fi command queued,
the tick commands the RC throttle. -/
theorem rc_preemption_witness :
    RC_IN_POLL_INTERVAL_MS ≤ u32sub 20
      (⟨0, 0, 0, 0, false, false, 15, 0, 15, 15, 15, 0, ⟨false, 0⟩,
        some ⟨1, 0⟩⟩ : CtrlState).lastRcPoll ∧
    (vehicleControlTick 500 true false 20 (some (3 / 4)) (some 0)
      ⟨0, 0, 0, 0, false, false, 15, 0, 15, 15, 15, 0, ⟨false, 0⟩,
        some ⟨1, 0⟩⟩).1.commandedThrottle = 3 / 4 := by
  refine ⟨by decide, ?_⟩
  exact (rc_preemption 500 false 20 (3 / 4) 0
    ⟨0, 0, 0, 0, false, false, 15, 0, 15, 15, 15, 0, ⟨false, 0⟩, some ⟨1, 0⟩⟩
    (some ⟨1, 0⟩) (by decide)).1

/-- C7 counterexample: a tick in which RC is active still pops the queued
network command out of the single-slot command cell — the cell is not left
unchanged, so the command is not retained for later ticks. -/
theorem wifi_cmd_retention_counterexample :
    (⟨0, 0, 0, 0, false, false, 15, 0, 15, 15, 15, 0, ⟨false, 0⟩,
        some ⟨1, 0⟩⟩ : CtrlState).cmdQueue = some ⟨1, 0⟩ ∧
    (vehicleControlTick 500 true false 20 (some 0) (some 0)
      ⟨0, 0, 0, 0, false, false, 15, 0, 15, 15, 15, 0, ⟨false, 0⟩,
        some ⟨1, 0⟩⟩).1.rcActive = true ∧
    (vehicleControlTick 500 true false 20 (some 0) (some 0)
      ⟨0, 0, 0, 0, false, false, 15, 0, 15, 15, 15, 0, ⟨false, 0⟩,
        some ⟨1, 0⟩⟩).1.cmdQueue = none := by
  refine ⟨rfl, ?_, ?_⟩ <;> rfl

/-- C7 (amended): a network command queued while the RC source is active is
ignored for the tick — commanded values are the RC readings and the Wi-Fi
activity timestamp is untouched — but it is dequeued and discarded rather
than retained for later ticks. -/
theorem wifi_cmd_dequeued_when_rc_active (wifiCmdTimeoutMs : ℕ)
    (imuEnabled : Bool) (now : ℕ) (t u : ℚ) (s : CtrlState) (c : WifiCmd)
    (hpoll : RC_IN_POLL_INTERVAL_MS ≤ u32sub now s.lastRcPoll)
    (hq : s.cmdQueue = some c) :
    (vehicleControlTick wifiCmdTimeoutMs true imuEnabled now (some t) (some u)
      s).1.cmdQueue = none ∧
    (vehicleControlTick wifiCmdTimeoutMs true imuEnabled now (some t) (some u)
      s).1.commandedThrottle = t ∧
    (vehicleControlTick wifiCmdTimeoutMs true imuEnabled now (some t) (some u)
      s).1.commandedSteering = u ∧
    (vehicleControlTick wifiCmdTimeoutMs true imuEnabled now (some t) (some u)
      s).1.lastWifiCmdMs = s.lastWifiCmdMs := by
  refine ⟨?_, ?_, ?_, ?_⟩ <;>
  · simp only [vehicleControlTick, preFailsafeState]
    rw [rcPollStage_hit now t u s hpoll]
    simp only [wifiCmdStage_rcActive, wifiActiveStage_rcActive,
      imuStage_fields, failsafeStage_of_rcActive, pwmStage_cmd_fields,
      telemStage_fields]

/-- C7 witness: concrete tick exercising the amended claim. -/
theorem wifi_cmd_dequeued_when_rc_active_witness :
    RC_IN_POLL_INTERVAL_MS ≤ u32sub 20
      (⟨0, 0, 0, 0, false, false, 15, 0, 15, 15, 15, 7, ⟨false, 0⟩,
        some ⟨1, 0⟩⟩ : CtrlState).lastRcPoll ∧
    (⟨0, 0, 0, 0, false, false, 15, 0, 15, 15, 15, 7, ⟨false, 0⟩,
        some ⟨1, 0⟩⟩ : CtrlState).cmdQueue = some ⟨1, 0⟩ ∧
    (vehicleControlTick 500 true false 20 (some 0) (some 0)
      ⟨0, 0, 0, 0, false, false, 15, 0, 15, 15, 15, 7, ⟨false, 0⟩,
        some ⟨1, 0⟩⟩).1.lastWifiCmdMs = 7 := by
  refine ⟨by decide, rfl, ?_⟩
  exact (wifi_cmd_dequeued_when_rc_active 500 false 20 0 0
    ⟨0, 0, 0, 0, false, false, 15, 0, 15, 15, 15, 7, ⟨false, 0⟩, some ⟨1, 0⟩⟩
    ⟨1, 0⟩ (by decide) rfl).2.2.2

/-- Decoding an empty buffer yields nothing, whatever the fuel. -/
theorem decodeSteps_nil (fuel : ℕ) : decodeSteps fuel [] = [] := by
  cases fuel <;> rfl

/-- Unfolding step of the decode loop when a frame parses at the head. -/
theorem decodeSteps_cons_some (fuel b : ℕ) (rest : List ℕ) (m : LinkMsg)
    (rem : List ℕ) (h : parseFrame (b :: rest) = some (m, rem)) :
    decodeSteps (fuel + 1) (b :: rest) = m :: decodeSteps fuel rem := by
  simp only [decodeSteps, h]

/-- Unfolding step of the decode loop when no frame parses at the head. -/
theorem decodeSteps_cons_none (fuel b : ℕ) (rest : List ℕ)
    (h : parseFrame (b :: rest) = none) :
    decodeSteps (fuel + 1) (b :: rest) = decodeSteps fuel rest := by
  simp only [decodeSteps, h]

/-- A well-formed frame parses at the head of any buffer, consuming exactly
its own bytes. -/
theorem parseFrame_encode (m : LinkMsg) (extra : List ℕ) :
    parseFrame (encodeFrame m ++ extra) = some (m, extra) := by
  obtain ⟨ty, payload⟩ := m
  show parseFrame (UART_FRAME_PREFIX_0 :: UART_FRAME_PREFIX_1 ::
    UART_PROTOCOL_VERSION :: ty :: payload.length ::
    ((payload ++ [linkChecksum UART_PROTOCOL_VERSION ty payload]) ++ extra)) =
    some (⟨ty, payload⟩, extra)
  have htk : ((payload ++ [linkChecksum UART_PROTOCOL_VERSION ty payload]) ++
      extra).take payload.length = payload := by
    rw [List.append_assoc, List.take_left]
  have hgd : ((payload ++ [linkChecksum UART_PROTOCOL_VERSION ty payload]) ++
      extra).getD payload.length 0 =
      linkChecksum UART_PROTOCOL_VERSION ty payload := by
    rw [List.append_assoc, List.getD_append_right]
    · simp
    · exact le_refl _
  have hdp : ((payload ++ [linkChecksum UART_PROTOCOL_VERSION ty payload]) ++
      extra).drop (payload.length + 1) = extra := by
    have hl : (payload ++ [linkChecksum UART_PROTOCOL_VERSION ty
        payload]).length = payload.length + 1 := by simp
    rw [← hl, List.drop_left]
  simp [parseFrame, htk, hgd, hdp]
  rw [List.getElem_append_right (le_refl _)]
  simp

/-- Decoding exactly one well-formed frame yields exactly its message. -/
theorem decodeStream_encode (m : LinkMsg) : decodeStream (encodeFrame m) = [m] := by
  have hp : parseFrame (encodeFrame m) = some (m, []) := by
    have h := parseFrame_encode m []
    rwa [List.append_nil] at h
  obtain ⟨ty, payload⟩ := m
  have hlen : (encodeFrame ⟨ty, payload⟩).length = (payload.length + 5) + 1 := by
    simp [encodeFrame]
  have hp2 : parseFrame (UART_FRAME_PREFIX_0 ::
      (UART_FRAME_PREFIX_1 :: UART_PROTOCOL_VERSION :: ty :: payload.length ::
        (payload ++ [linkChecksum UART_PROTOCOL_VERSION ty payload]))) =
      some (⟨ty, payload⟩, []) := hp
  unfold decodeStream
  rw [hlen]
  rw [show encodeFrame ⟨ty, payload⟩ = UART_FRAME_PREFIX_0 ::
    (UART_FRAME_PREFIX_1 :: UART_PROTOCOL_VERSION :: ty :: payload.length ::
      (payload ++ [linkChecksum UART_PROTOCOL_VERSION ty payload])) from rfl]
  rw [decodeSteps_cons_some _ _ _ _ _ hp2]
  rw [decodeSteps_nil]

/-- When no nonempty suffix of the junk bytes parses as a frame, the decode
loop scans straight through them. -/
theorem decodeSteps_skip (V : List ℕ) :
    ∀ L : List ℕ,
      (∀ L2, L2 <:+ L → L2 ≠ [] → parseFrame (L2 ++ V) = none) →
      decodeSteps (L ++ V).length (L ++ V) = decodeSteps V.length V := by
  intro L
  induction L with
  | nil => intro _; rfl
  | cons b L ih =>
      intro h
      have hb : parseFrame (b :: (L ++ V)) = none :=
        h (b :: L) (List.suffix_refl _) (by simp)
      rw [List.cons_append, List.length_cons, decodeSteps_cons_none _ _ _ hb]
      exact ih fun L2 hs hne => h L2 (hs.trans (List.suffix_cons b L)) hne

/-- A proper suffix of a list is a suffix of its tail. -/
theorem suffix_tail_of_ne (l2 L : List ℕ) (hs : l2 <:+ L) (hne : l2 ≠ L) :
    l2 <:+ L.tail := by
  obtain ⟨pre, hpre⟩ := hs
  cases pre with
  | nil =>
      simp only [List.nil_append] at hpre
      exact absurd hpre hne
  | cons x pre =>
      cases L with
      | nil => simp at hpre
      | cons y t =>
          rw [List.cons_append] at hpre
          injection hpre with h1 h2
          exact ⟨pre, h2⟩

/-- When `anyTailFrame` reports no resynchronisation point, no nonempty
suffix of the buffer parses with the next frame appended. -/
theorem anyTailFrame_suffix (V : List ℕ) :
    ∀ l : List ℕ, anyTailFrame l V = false →
      ∀ l2, l2 <:+ l → l2 ≠ [] → parseFrame (l2 ++ V) = none := by
  intro l
  induction l with
  | nil =>
      intro _ l2 hs hne
      obtain ⟨pre, hpre⟩ := hs
      exact absurd (List.append_eq_nil.mp hpre).2 hne
  | cons x t ih =>
      intro h l2 hs hne
      simp only [anyTailFrame, Bool.or_eq_false_iff] at h
      rcases List.suffix_cons_iff.mp hs with heq | hs2
      · rw [heq]
        cases hp : parseFrame ((x :: t) ++ V) with
        | none => rfl
        | some v =>
            rw [hp] at h
            simp at h
      · exact ih h.2 l2 hs2 hne

/-- A buffer whose first two bytes are not the frame prefix never parses. -/
theorem parseFrame_none_of_head (input : List ℕ)
    (h : ∀ a b t, input = a :: b :: t →
      ¬(a = UART_FRAME_PREFIX_0 ∧ b = UART_FRAME_PREFIX_1)) :
    parseFrame input = none := by
  match input with
  | [] => rfl
  | [a] => rfl
  | [a, b] => rfl
  | [a, b, c] => rfl
  | [a, b, c, d] => rfl
  | a :: b :: c :: d :: e :: t =>
      have hab := h a b _ rfl
      simp only [parseFrame]
      rw [if_neg]
      intro hc
      exact hab ⟨hc.1, hc.2.1⟩

/-- A frame-shaped buffer whose integrity byte does not match its contents
never parses. -/
theorem parseFrame_checksum_mismatch (ty : ℕ) (payload : List ℕ) (cb : ℕ)
    (rest2 : List ℕ)
    (h : cb ≠ linkChecksum UART_PROTOCOL_VERSION ty payload) :
    parseFrame (UART_FRAME_PREFIX_0 :: UART_FRAME_PREFIX_1 ::
      UART_PROTOCOL_VERSION :: ty :: payload.length ::
      (payload ++ (cb :: rest2))) = none := by
  have htk : (payload ++ (cb :: rest2)).take payload.length = payload :=
    List.take_left payload (cb :: rest2)
  have hgd : (payload ++ (cb :: rest2)).getD payload.length 0 = cb := by
    rw [List.getD_append_right]
    · simp
    · exact le_refl _
  simp [parseFrame, htk, hgd, h]
  intro hg
  rw [List.getElem_append_right (le_refl _)] at hg
  simp at hg
  exact absurd hg h

/-- C8 (amended): feeding the decoder a detectably corrupted frame (bad
prefix byte, bad integrity byte, or truncation) followed by one valid frame
yields exactly one parsed message — the valid one — provided no byte run
starting inside the corrupted bytes parses as a complete well-formed frame;
the corrupted bytes produce no message and the decoder resynchronises by
scanning for the prefix pair.  The proviso is exactly what the
counterexample forces: corrupted bytes that embed a complete valid frame
make the scanner find and emit that frame too. -/
theorem protocol_resync (c : Corruption) (mc m : LinkMsg)
    (hdet : corruptionDetectable c mc (encodeFrame m))
    (htail : anyTailFrame (corruptBytes c mc).tail (encodeFrame m) = false) :
    decodeStream (corruptBytes c mc ++ encodeFrame m) = [m] := by
  have hL : parseFrame (corruptBytes c mc ++ encodeFrame m) = none := by
    cases c with
    | badPrefixByte p =>
        simp only [corruptionDetectable] at hdet
        apply parseFrame_none_of_head
        intro a b t hshape
        simp only [corruptBytes, List.cons_append] at hshape
        injection hshape with e1 _
        intro hc
        exact hdet (e1.trans hc.1)
    | badChecksumByte cb =>
        simp only [corruptionDetectable] at hdet
        obtain ⟨ty, payload⟩ := mc
        have hdl : (encodeFrame ⟨ty, payload⟩).dropLast =
            UART_FRAME_PREFIX_0 :: UART_FRAME_PREFIX_1 ::
            UART_PROTOCOL_VERSION :: ty :: payload.length :: payload := by
          have hre : encodeFrame ⟨ty, payload⟩ =
              (UART_FRAME_PREFIX_0 :: UART_FRAME_PREFIX_1 ::
                UART_PROTOCOL_VERSION :: ty :: payload.length :: payload) ++
              [linkChecksum UART_PROTOCOL_VERSION ty payload] := by
            simp [encodeFrame]
          rw [hre, List.dropLast_concat]
        have hsh : corruptBytes (Corruption.badChecksumByte cb) ⟨ty, payload⟩
            ++ encodeFrame m =
            UART_FRAME_PREFIX_0 :: UART_FRAME_PREFIX_1 ::
            UART_PROTOCOL_VERSION :: ty :: payload.length ::
            (payload ++ (cb :: encodeFrame m)) := by
          simp only [corruptBytes, hdl]
          simp
        rw [hsh]
        exact parseFrame_checksum_mismatch ty payload cb (encodeFrame m) hdet
    | truncatedAt k =>
        simp only [corruptionDetectable] at hdet
        exact hdet.2
  have hscan : ∀ L2, L2 <:+ corruptBytes c mc → L2 ≠ [] →
      parseFrame (L2 ++ encodeFrame m) = none := by
    intro L2 hs hne
    by_cases heq : L2 = corruptBytes c mc
    · rw [heq]
      exact hL
    · exact anyTailFrame_suffix (encodeFrame m) _ htail L2
        (suffix_tail_of_ne L2 _ hs heq) hne
  have hskip := decodeSteps_skip (encodeFrame m) (corruptBytes c mc) hscan
  unfold decodeStream
  rw [hskip]
  exact decodeStream_encode m

/-- C8 counterexample: a bad-checksum corruption of a frame whose payload
embeds a complete valid Ping frame, followed by a valid Command frame,
decodes to TWO messages — the scanner resynchronises onto the embedded Ping
— refuting the claim that every corrupted-frame-then-valid-frame stream
yields exactly one parsed message. -/
theorem protocol_resync_counterexample :
    corruptionDetectable (Corruption.badChecksumByte 0)
      ⟨2, [170, 85, 1, 3, 0, 4]⟩ (encodeFrame ⟨1, [7, 9]⟩) ∧
    decodeStream (corruptBytes (Corruption.badChecksumByte 0)
      ⟨2, [170, 85, 1, 3, 0, 4]⟩ ++ encodeFrame ⟨1, [7, 9]⟩) =
      [⟨3, []⟩, ⟨1, [7, 9]⟩] := by
  exact ⟨by decide, by decide⟩

/-- C8 witness: a Ping frame with its integrity byte corrupted to 0,
followed by a valid two-byte Command frame, decodes to exactly the Command
message. -/
theorem protocol_resync_witness :
    corruptionDetectable (Corruption.badChecksumByte 0) ⟨3, []⟩
      (encodeFrame ⟨1, [7, 9]⟩) ∧
    anyTailFrame (List.tail (corruptBytes (Corruption.badChecksumByte 0)
      ⟨3, []⟩)) (encodeFrame ⟨1, [7, 9]⟩) = false ∧
    decodeStream (corruptBytes (Corruption.badChecksumByte 0) ⟨3, []⟩ ++
      encodeFrame ⟨1, [7, 9]⟩) = [⟨1, [7, 9]⟩] := by
  refine ⟨by decide, by decide, ?_⟩
  exact protocol_resync (Corruption.badChecksumByte 0) ⟨3, []⟩ ⟨1, [7, 9]⟩
    (by decide) (by decide)
